import Mathlib

/-!
Shallow embedding of the audio-reactive particle engine in
`src/canvasParticleSystem.ts` (class `CanvasParticleSystem`).

JavaScript numbers are modelled as real numbers; `Math.sqrt` is `Real.sqrt`,
`Math.abs` is `|·|`, `Math.floor` is `Int.floor`.  An out-of-bounds array read
(which in JavaScript yields `undefined` and then `NaN` after arithmetic) is
modelled with `Option`: `none` stands for the poisoned result.
-/

namespace FFTDJ

noncomputable section

/-- A particle, as in the `dots` array: position, velocity and mass. -/
structure Dot where
  x : ℝ
  y : ℝ
  vx : ℝ
  vy : ℝ
  mass : ℝ

/-- A frequency band: center frequency and current normalized intensity. -/
structure Band where
  centerFreq : ℝ
  intensity : ℝ

/-- The drawing surface dimensions (`canvas.width`, `canvas.height`). -/
structure Canvas where
  width : ℝ
  height : ℝ

/-- The attached audio analyser: its context sample rate and the byte
magnitude array delivered by `getByteFrequencyData` (length =
`frequencyBinCount`). -/
structure Analyser where
  sampleRate : ℝ
  freqData : List ℕ

/-- `FORCE_CONSTANT = 10.0`. -/
def FORCE_CONSTANT : ℝ := 10.0

/-- `INWARD_PULL = 0.5`. -/
def INWARD_PULL : ℝ := 0.5

/-- `NUM_FREQUENCY_BANDS = 8`. -/
def NUM_FREQUENCY_BANDS : ℕ := 8

/-- `DAMPING = 0.99`. -/
def DAMPING : ℝ := 0.99

/-- `EDGE_BOUNCE = 0.8`. -/
def EDGE_BOUNCE : ℝ := 0.8

/-- `DIST_THRESH_MAX = 90`. -/
def DIST_THRESH_MAX : ℝ := 90

/-- The local `maxSpeed = 10` of `applyFFTForces`. -/
def maxSpeed : ℝ := 10

/-- `distance(dot1, dot2) = sqrt(dx*dx + dy*dy)`. -/
def distance (d1 d2 : Dot) : ℝ :=
  Real.sqrt ((d1.x - d2.x) * (d1.x - d2.x) + (d1.y - d2.y) * (d1.y - d2.y))

/-- `triangleArea`: shoelace / determinant formula. -/
def triangleArea (d1 d2 d3 : Dot) : ℝ :=
  |d1.x * (d2.y - d3.y) + d2.x * (d3.y - d1.y) + d3.x * (d1.y - d2.y)| / 2

/-- The `maxArea` normalizer used in `drawConnections`:
`DIST_THRESH_MAX * DIST_THRESH_MAX / 4`. -/
def maxArea : ℝ := DIST_THRESH_MAX * DIST_THRESH_MAX / 4

/-- Triangle fill opacity from `drawConnections`:
`(1 - area/maxArea) * 0.02`. -/
def triOpacity (d1 d2 d3 : Dot) : ℝ :=
  (1 - triangleArea d1 d2 d3 / maxArea) * 0.02

/-- An emitted line connection: the two particle indices and the stroke
opacity used for it. -/
structure Edge where
  i : ℕ
  j : ℕ
  opacity : ℝ

/-- The edge emitted by `drawConnections` for the index pair `(i, j)` of
`dots`, if any: the loop visits pairs with `i < j` and strokes a line with
opacity `1 - dist/DIST_THRESH_MAX` exactly when `dist < DIST_THRESH_MAX`. -/
def edgeAt (dots : List Dot) (i j : ℕ) : Option Edge :=
  if i < j then
    (dots.get? i).bind (fun di =>
      (dots.get? j).bind (fun dj =>
        if distance di dj < DIST_THRESH_MAX then
          some ⟨i, j, 1 - distance di dj / DIST_THRESH_MAX⟩
        else none))
  else none

/-- All line connections emitted by one `drawConnections` pass, in loop
order: for each `i`, the pairs `(i, j)` with `i < j < dots.length`. -/
def edgeList (dots : List Dot) : List Edge :=
  (List.range dots.length).flatMap (fun i =>
    (List.range dots.length).filterMap (fun j => edgeAt dots i j))

/-- `initializeFrequencyBands`: 8 bands, log-spaced center frequencies
`minFreq * (maxFreq/minFreq)^(i/(NUM_FREQUENCY_BANDS-1))` with
`minFreq = 20`, `maxFreq = 2000`, intensity 0. -/
def centerFrequency (i : ℕ) : ℝ :=
  20 * (2000 / 20 : ℝ) ^ ((i : ℝ) / ((NUM_FREQUENCY_BANDS : ℝ) - 1))

/-- The `frequencyBands` list right after construction. -/
def initializeFrequencyBands : List Band :=
  (List.range NUM_FREQUENCY_BANDS).map (fun i => ⟨centerFrequency i, 0⟩)

/-- `binIndex = floor(centerFreq / (sampleRate/2) * freqData.length)`. -/
def binIndex (c sampleRate : ℝ) (len : ℕ) : ℤ :=
  ⌊c / (sampleRate / 2) * (len : ℝ)⌋

/-- A JavaScript indexed read `data[idx]`: `none` models the `undefined`
produced by an out-of-range index. -/
def readByte (data : List ℕ) (idx : ℤ) : Option ℕ :=
  if idx < 0 then none else data.get? idx.toNat

/-- The intensity `freqData[binIndex] / 255.0` assigned to a band with
center frequency `c` by `updateFFTForces`; `none` models the `NaN`
resulting from an out-of-range bin index. -/
def bandIntensity (a : Analyser) (c : ℝ) : Option ℝ :=
  (readByte a.freqData (binIndex c a.sampleRate a.freqData.length)).map
    (fun (m : ℕ) => (m : ℝ) / 255)

/-- The `forEach` loop of `updateFFTForces`: every band's intensity is
resampled from the magnitude array; `none` models the poisoned (`NaN`)
state reached when some band's bin index is out of range. -/
def updateBands (a : Analyser) : List Band → Option (List Band)
  | [] => some []
  | b :: rest =>
    match bandIntensity a b.centerFreq, updateBands a rest with
    | some v, some rest2 => some ({ b with intensity := v } :: rest2)
    | _, _ => none

/-- `updateFFTForces`: with no analyser attached (`if (!this.audioAnalyser)
return`) the bands are unchanged; otherwise every band is resampled. -/
def updateFFTForces (a? : Option Analyser) (bands : List Band) :
    Option (List Band) :=
  match a? with
  | none => some bands
  | some a => updateBands a bands

/-- The force contributed by band number `i` in `applyFFTForces`: anchor on
a circle of radius 25% of the smaller canvas dimension at angle
`2·π·i / NUM_FREQUENCY_BANDS`, inverse-square magnitude
`FORCE_CONSTANT * intensity / d²`, skipped when `d < 1`. -/
def bandForce (c : Canvas) (i : ℕ) (b : Band) (d : Dot) : ℝ × ℝ :=
  let angle := 2 * Real.pi * (i : ℝ) / (NUM_FREQUENCY_BANDS : ℝ)
  let radius := min c.width c.height * 0.25
  let centerX := c.width / 2 + radius * Real.cos angle
  let centerY := c.height / 2 + radius * Real.sin angle
  let dx := centerX - d.x
  let dy := centerY - d.y
  let distanceSquared := dx * dx + dy * dy
  let dist := Real.sqrt distanceSquared
  if dist < 1 then (0, 0)
  else
    let forceMag := FORCE_CONSTANT * b.intensity / distanceSquared
    (dx / dist * forceMag, dy / dist * forceMag)

/-- The accumulation loop `for (i = 0; i < frequencyBands.length; i++)`
of `applyFFTForces`, carrying the loop index. -/
def totalForceFrom (c : Canvas) (d : Dot) : ℕ → List Band → ℝ × ℝ
  | _, [] => (0, 0)
  | i, b :: rest =>
    let f := bandForce c i b d
    let r := totalForceFrom c d (i + 1) rest
    (f.1 + r.1, f.2 + r.2)

/-- The accumulated `(totalFx, totalFy)` of `applyFFTForces`. -/
def totalForce (c : Canvas) (bands : List Band) (d : Dot) : ℝ × ℝ :=
  totalForceFrom c d 0 bands

/-- `applyFFTForces`: accumulate band forces, `a = F/mass`, Euler velocity
update `v += a`, exponential damping `v *= DAMPING`, then the speed clamp
rescaling `v` to magnitude `maxSpeed` whenever `|v| > maxSpeed`. -/
def applyFFTForces (c : Canvas) (bands : List Band) (d : Dot) : Dot :=
  let F := totalForce c bands d
  let ax := F.1 / d.mass
  let ay := F.2 / d.mass
  let vx1 := (d.vx + ax) * DAMPING
  let vy1 := (d.vy + ay) * DAMPING
  let speedSquared := vx1 * vx1 + vy1 * vy1
  if speedSquared > maxSpeed * maxSpeed then
    let scale := maxSpeed / Real.sqrt speedSquared
    { d with vx := vx1 * scale, vy := vy1 * scale }
  else
    { d with vx := vx1, vy := vy1 }

/-- The local `distFromCenter` of `updateDots`:
`sqrt(dx*dx + dy*dy)` with `dx, dy` the displacement to the canvas center. -/
def distFromCenter (c : Canvas) (d : Dot) : ℝ :=
  Real.sqrt ((c.width / 2 - d.x) * (c.width / 2 - d.x) +
    (c.height / 2 - d.y) * (c.height / 2 - d.y))

/-- The local `maxDist` of `updateDots`: 40% of the smaller dimension. -/
def maxDistThreshold (c : Canvas) : ℝ :=
  min c.width c.height * 0.4

/-- The local `pullFactor` of `updateDots`:
`(distFromCenter - maxDist) * INWARD_PULL / distFromCenter`. -/
def pullFactor (c : Canvas) (d : Dot) : ℝ :=
  (distFromCenter c d - maxDistThreshold c) * INWARD_PULL / distFromCenter c d

/-- The inward-pull block of `updateDots`: when the distance from the canvas
center exceeds 40% of the smaller dimension, the velocity receives the
impulse `(dx, dy) * pullFactor` toward the center. -/
def centerPull (c : Canvas) (d : Dot) : Dot :=
  if distFromCenter c d > maxDistThreshold c then
    { d with vx := d.vx + (c.width / 2 - d.x) * pullFactor c d,
             vy := d.vy + (c.height / 2 - d.y) * pullFactor c d }
  else d

/-- The Euler position update `x += vx; y += vy` of `updateDots`. -/
def moveDot (d : Dot) : Dot :=
  { d with x := d.x + d.vx, y := d.y + d.vy }

/-- One axis of the boundary collision block of `updateDots`:
`if pos < 0 ` clamp to `0` and set the velocity component to
`|v| * EDGE_BOUNCE`; `else if pos > bound` clamp to `bound` and set it to
`-|v| * EDGE_BOUNCE`. -/
def bounceAxis (pos v bound : ℝ) : ℝ × ℝ :=
  if pos < 0 then (0, |v| * EDGE_BOUNCE)
  else if pos > bound then (bound, -|v| * EDGE_BOUNCE)
  else (pos, v)

/-- The full boundary collision block of `updateDots`, both axes. -/
def handleBoundary (c : Canvas) (d : Dot) : Dot :=
  let px := bounceAxis d.x d.vx c.width
  let py := bounceAxis d.y d.vy c.height
  { d with x := px.1, vx := px.2, y := py.1, vy := py.2 }

/-- The per-particle body of `updateDots`, in source order:
`applyFFTForces`, then the inward pull, then the position update, then the
boundary collision response. -/
def updateDot (c : Canvas) (bands : List Band) (d : Dot) : Dot :=
  handleBoundary c (moveDot (centerPull c (applyFFTForces c bands d)))

/-- The per-particle step as the spec's §4.3 words describe it (used only to
compare against `updateDot`): the centering force is accumulated into `F`
together with the band forces, then `a = F / mass`, `v += a`, the damping
multiplication, the speed clamp, the position update and the boundary
response. -/
def updateDotClaimed (c : Canvas) (bands : List Band) (d : Dot) : Dot :=
  let F := totalForce c bands d
  let Fc : ℝ × ℝ :=
    if distFromCenter c d > maxDistThreshold c then
      ((c.width / 2 - d.x) * pullFactor c d, (c.height / 2 - d.y) * pullFactor c d)
    else (0, 0)
  let ax := (F.1 + Fc.1) / d.mass
  let ay := (F.2 + Fc.2) / d.mass
  let vx1 := (d.vx + ax) * DAMPING
  let vy1 := (d.vy + ay) * DAMPING
  let ss := vx1 * vx1 + vy1 * vy1
  let v2 : ℝ × ℝ :=
    if ss > maxSpeed * maxSpeed then
      (vx1 * (maxSpeed / Real.sqrt ss), vy1 * (maxSpeed / Real.sqrt ss))
    else (vx1, vy1)
  let px := bounceAxis (d.x + v2.1) v2.1 c.width
  let py := bounceAxis (d.y + v2.2) v2.2 c.height
  ⟨px.1, py.1, px.2, py.2, d.mass⟩

/-- The whole `updateDots` tick: refresh band intensities from the analyser,
then update every particle.  `none` models the `NaN`-poisoned state of an
out-of-range spectral read. -/
def updateDots (c : Canvas) (a? : Option Analyser) (bands : List Band)
    (dots : List Dot) : Option (List Band × List Dot) :=
  (updateFFTForces a? bands).map
    (fun bands2 => (bands2, dots.map (updateDot c bands2)))

/-- The speed `sqrt(vx² + vy²)` of a particle. -/
def speed (d : Dot) : ℝ :=
  Real.sqrt (d.vx * d.vx + d.vy * d.vy)

/-- A fixed stand-in for the random particle generator. -/
def anyDotGen : ℕ → Dot := fun _ => ⟨0, 0, 0, 0, 1⟩

/-- The engine state touched by `setDotCount`: the stored `DOT_COUNT` field
and the `dots` array. -/
structure SysState where
  dotCount : ℤ
  dots : List Dot

/-- `initializeDots`: the loop `for (i = 0; i < DOT_COUNT; i++)` pushes one
randomly generated dot per iteration; the random generator is abstracted as
`gen`.  A non-positive count runs the loop zero times. -/
def initializeDots (gen : ℕ → Dot) (count : ℤ) : List Dot :=
  (List.range count.toNat).map gen

/-- `setDotCount(count)`: stores the given count verbatim, discards the
particle array and reinitializes it. -/
def setDotCount (gen : ℕ → Dot) (s : SysState) (count : ℤ) : SysState :=
  { s with dotCount := count, dots := initializeDots gen count }

end

/-! ### Helper lemmas -/

theorem bounceAxis_fst_mem (pos v bound : ℝ) (hb : 0 ≤ bound) :
    0 ≤ (bounceAxis pos v bound).1 ∧ (bounceAxis pos v bound).1 ≤ bound := by
  unfold bounceAxis
  split_ifs with h1 h2
  · exact ⟨le_refl 0, hb⟩
  · exact ⟨hb, le_refl bound⟩
  · exact ⟨not_lt.mp h1, not_lt.mp h2⟩

theorem initializeFrequencyBands_intensity :
    ∀ b ∈ initializeFrequencyBands, b.intensity = 0 := by
  intro b hb
  unfold initializeFrequencyBands at hb
  simp only [List.mem_map, List.mem_range] at hb
  obtain ⟨i, _, rfl⟩ := hb
  rfl

theorem bandForce_of_intensity_zero (c : Canvas) (i : ℕ) (b : Band) (d : Dot)
    (h : b.intensity = 0) : bandForce c i b d = (0, 0) := by
  unfold bandForce
  dsimp only
  split_ifs with h1
  · rfl
  · rw [h]
    simp

theorem totalForceFrom_zero (c : Canvas) (d : Dot) (i : ℕ) (bands : List Band)
    (h : ∀ b ∈ bands, b.intensity = 0) : totalForceFrom c d i bands = (0, 0) := by
  induction bands generalizing i with
  | nil => rfl
  | cons b rest ih =>
    unfold totalForceFrom
    rw [bandForce_of_intensity_zero c i b d (h b (by simp)),
      ih (i + 1) (fun b2 hb2 => h b2 (by simp [hb2]))]
    simp

theorem totalForce_zero (c : Canvas) (bands : List Band) (d : Dot)
    (h : ∀ b ∈ bands, b.intensity = 0) : totalForce c bands d = (0, 0) :=
  totalForceFrom_zero c d 0 bands h

theorem applyFFTForces_zero_force (c : Canvas) (bands : List Band) (d : Dot)
    (hb : ∀ b ∈ bands, b.intensity = 0)
    (hv : d.vx * d.vx + d.vy * d.vy ≤ maxSpeed * maxSpeed) :
    applyFFTForces c bands d =
      { d with vx := d.vx * DAMPING, vy := d.vy * DAMPING } := by
  unfold applyFFTForces
  rw [totalForce_zero c bands d hb]
  dsimp only
  simp only [zero_div, add_zero]
  rw [if_neg ?hcond]
  case hcond =>
    unfold DAMPING
    unfold maxSpeed at hv ⊢
    push_neg
    nlinarith [hv, sq_nonneg d.vx, sq_nonneg d.vy]

theorem centerPull_of_le (c : Canvas) (d : Dot)
    (h : distFromCenter c d ≤ maxDistThreshold c) :
    centerPull c d = d := by
  unfold centerPull
  rw [if_neg (not_lt.mpr h)]

theorem handleBoundary_of_inside (c : Canvas) (d : Dot)
    (hx0 : 0 ≤ d.x) (hx1 : d.x ≤ c.width)
    (hy0 : 0 ≤ d.y) (hy1 : d.y ≤ c.height) :
    handleBoundary c d = d := by
  unfold handleBoundary bounceAxis
  dsimp only
  rw [if_neg (not_lt.mpr hx0), if_neg (not_lt.mpr hx1),
    if_neg (not_lt.mpr hy0), if_neg (not_lt.mpr hy1)]

theorem clampVel_speed_le (vx1 vy1 : ℝ) (d : Dot) :
    speed (if vx1 * vx1 + vy1 * vy1 > maxSpeed * maxSpeed then
        { d with vx := vx1 * (maxSpeed / Real.sqrt (vx1 * vx1 + vy1 * vy1)),
                 vy := vy1 * (maxSpeed / Real.sqrt (vx1 * vx1 + vy1 * vy1)) }
      else { d with vx := vx1, vy := vy1 }) ≤ maxSpeed := by
  have hms : (0:ℝ) ≤ maxSpeed := by unfold maxSpeed; norm_num
  split_ifs with h
  · unfold speed
    dsimp only
    have hss : (0:ℝ) < vx1 * vx1 + vy1 * vy1 := by
      refine lt_trans ?_ h
      unfold maxSpeed
      norm_num
    have hs : (0:ℝ) < Real.sqrt (vx1 * vx1 + vy1 * vy1) := Real.sqrt_pos.mpr hss
    have key : vx1 * (maxSpeed / Real.sqrt (vx1 * vx1 + vy1 * vy1)) *
        (vx1 * (maxSpeed / Real.sqrt (vx1 * vx1 + vy1 * vy1))) +
        vy1 * (maxSpeed / Real.sqrt (vx1 * vx1 + vy1 * vy1)) *
        (vy1 * (maxSpeed / Real.sqrt (vx1 * vx1 + vy1 * vy1))) =
        maxSpeed ^ 2 := by
      have hsq : Real.sqrt (vx1 * vx1 + vy1 * vy1) ^ 2 = vx1 * vx1 + vy1 * vy1 :=
        Real.sq_sqrt hss.le
      field_simp
      nlinarith [hsq]
    rw [key, Real.sqrt_sq hms]
  · unfold speed
    dsimp only
    calc Real.sqrt (vx1 * vx1 + vy1 * vy1) ≤
        Real.sqrt (maxSpeed * maxSpeed) := Real.sqrt_le_sqrt (not_lt.mp h)
      _ = maxSpeed := Real.sqrt_mul_self hms

theorem applyFFTForces_pos (c : Canvas) (bands : List Band) (d : Dot) :
    (applyFFTForces c bands d).x = d.x ∧ (applyFFTForces c bands d).y = d.y ∧
    (applyFFTForces c bands d).mass = d.mass := by
  unfold applyFFTForces
  dsimp only
  split_ifs <;> exact ⟨rfl, rfl, rfl⟩

/-! ### C4 -/

/-- C4 amended: the centering impulse is not accumulated into the force
`F`: it is added directly to the velocity after `applyFFTForces` (which
already performed the acceleration, damping and speed clamp), is not
divided by the mass, and is itself subject to neither damping nor the speed
clamp; the position update then uses this unclamped velocity. -/
theorem centering_impulse_after_clamp (c : Canvas) (bands : List Band) (d : Dot)
    (hdist : maxDistThreshold c < distFromCenter c d)
    (hx0 : 0 ≤ d.x + ((applyFFTForces c bands d).vx +
        (c.width / 2 - d.x) * pullFactor c d))
    (hx1 : d.x + ((applyFFTForces c bands d).vx +
        (c.width / 2 - d.x) * pullFactor c d) ≤ c.width)
    (hy0 : 0 ≤ d.y + ((applyFFTForces c bands d).vy +
        (c.height / 2 - d.y) * pullFactor c d))
    (hy1 : d.y + ((applyFFTForces c bands d).vy +
        (c.height / 2 - d.y) * pullFactor c d) ≤ c.height) :
    (updateDot c bands d).vx =
      (applyFFTForces c bands d).vx + (c.width / 2 - d.x) * pullFactor c d ∧
    (updateDot c bands d).vy =
      (applyFFTForces c bands d).vy + (c.height / 2 - d.y) * pullFactor c d ∧
    (updateDot c bands d).x =
      d.x + ((applyFFTForces c bands d).vx +
        (c.width / 2 - d.x) * pullFactor c d) ∧
    (updateDot c bands d).y =
      d.y + ((applyFFTForces c bands d).vy +
        (c.height / 2 - d.y) * pullFactor c d) := by
  obtain ⟨hx, hy, hm⟩ := applyFFTForces_pos c bands d
  have hD : distFromCenter c (applyFFTForces c bands d) = distFromCenter c d := by
    unfold distFromCenter
    rw [hx, hy]
  have hP : pullFactor c (applyFFTForces c bands d) = pullFactor c d := by
    unfold pullFactor
    rw [hD]
  have h2 : centerPull c (applyFFTForces c bands d) =
      ⟨d.x, d.y,
       (applyFFTForces c bands d).vx + (c.width / 2 - d.x) * pullFactor c d,
       (applyFFTForces c bands d).vy + (c.height / 2 - d.y) * pullFactor c d,
       d.mass⟩ := by
    unfold centerPull
    rw [hD, hP, if_pos hdist, hx, hy, hm]
  have h4 : handleBoundary c
      ⟨d.x + ((applyFFTForces c bands d).vx +
          (c.width / 2 - d.x) * pullFactor c d),
       d.y + ((applyFFTForces c bands d).vy +
          (c.height / 2 - d.y) * pullFactor c d),
       (applyFFTForces c bands d).vx + (c.width / 2 - d.x) * pullFactor c d,
       (applyFFTForces c bands d).vy + (c.height / 2 - d.y) * pullFactor c d,
       d.mass⟩ =
      ⟨d.x + ((applyFFTForces c bands d).vx +
          (c.width / 2 - d.x) * pullFactor c d),
       d.y + ((applyFFTForces c bands d).vy +
          (c.height / 2 - d.y) * pullFactor c d),
       (applyFFTForces c bands d).vx + (c.width / 2 - d.x) * pullFactor c d,
       (applyFFTForces c bands d).vy + (c.height / 2 - d.y) * pullFactor c d,
       d.mass⟩ :=
    handleBoundary_of_inside c _ hx0 hx1 hy0 hy1
  unfold updateDot
  rw [h2]
  unfold moveDot
  dsimp only
  rw [h4]
  exact ⟨rfl, rfl, rfl, rfl⟩

/-- Witness for the amended C4: a resting particle of mass `0.5` at
`(1000, 500)` on a `1000 × 1000` canvas with silent bands receives the
centering impulse verbatim: its post-step `vx` is `-50` (not divided by the
mass, not damped, not clamped). -/
theorem centering_impulse_after_clamp_witness :
    (updateDot ⟨1000, 1000⟩ initializeFrequencyBands
      ⟨1000, 500, 0, 0, 0.5⟩).vx = -50 := by
  have hD : distFromCenter ⟨1000, 1000⟩ (⟨1000, 500, 0, 0, 0.5⟩ : Dot) = 500 := by
    unfold distFromCenter
    rw [show ((1000:ℝ)/2 - 1000) * ((1000:ℝ)/2 - 1000) +
        ((1000:ℝ)/2 - 500) * ((1000:ℝ)/2 - 500) = 500^2 by norm_num]
    exact Real.sqrt_sq (by norm_num)
  have hM : maxDistThreshold ⟨1000, 1000⟩ = 400 := by
    unfold maxDistThreshold
    norm_num [min_self]
  have hP : pullFactor ⟨1000, 1000⟩ (⟨1000, 500, 0, 0, 0.5⟩ : Dot) = 0.1 := by
    unfold pullFactor INWARD_PULL
    rw [hD, hM]
    norm_num
  have hA : applyFFTForces ⟨1000, 1000⟩ initializeFrequencyBands
      ⟨1000, 500, 0, 0, 0.5⟩ = ⟨1000, 500, 0, 0, 0.5⟩ := by
    rw [applyFFTForces_zero_force _ _ _ initializeFrequencyBands_intensity
      (by unfold maxSpeed; norm_num)]
    simp
  have h := centering_impulse_after_clamp ⟨1000, 1000⟩ initializeFrequencyBands
    ⟨1000, 500, 0, 0, 0.5⟩
    (by rw [hD, hM]; norm_num)
    (by rw [hA, hP]; norm_num)
    (by rw [hA, hP]; norm_num)
    (by rw [hA, hP]; norm_num)
    (by rw [hA, hP]; norm_num)
  rw [h.1, hA, hP]
  norm_num

/-! ### C1 -/

theorem distance_comm (d1 d2 : Dot) : distance d1 d2 = distance d2 d1 := by
  unfold distance
  congr 1
  ring

/-- C1 counterexample: a near-equilateral triangle with all sides below the
threshold whose shoelace area (2760) exceeds `maxArea = 2025`, so the
emitted opacity `(1 - area/maxArea) * 0.02` is negative. -/
theorem triOpacity_negative_cex :
    distance ⟨0, 0, 0, 0, 1⟩ ⟨80, 0, 0, 0, 1⟩ < DIST_THRESH_MAX ∧
    distance ⟨80, 0, 0, 0, 1⟩ ⟨40, 69, 0, 0, 1⟩ < DIST_THRESH_MAX ∧
    distance ⟨40, 69, 0, 0, 1⟩ ⟨0, 0, 0, 0, 1⟩ < DIST_THRESH_MAX ∧
    triOpacity ⟨0, 0, 0, 0, 1⟩ ⟨80, 0, 0, 0, 1⟩ ⟨40, 69, 0, 0, 1⟩ < 0 := by
  have h90 : (90:ℝ) = Real.sqrt 8100 := by
    rw [show (8100:ℝ) = 90^2 by norm_num]
    exact (Real.sqrt_sq (by norm_num)).symm
  have h6361 : Real.sqrt 6361 < 90 := by
    rw [h90]
    exact Real.sqrt_lt_sqrt (by norm_num) (by norm_num)
  refine ⟨?_, ?_, ?_, ?_⟩
  · show Real.sqrt _ < _
    unfold DIST_THRESH_MAX
    rw [show ((0:ℝ) - 80) * ((0:ℝ) - 80) + ((0:ℝ) - 0) * ((0:ℝ) - 0) = 80^2
      by norm_num, Real.sqrt_sq (by norm_num : (0:ℝ) ≤ 80)]
    norm_num
  · show Real.sqrt _ < _
    unfold DIST_THRESH_MAX
    rw [show ((80:ℝ) - 40) * ((80:ℝ) - 40) + ((0:ℝ) - 69) * ((0:ℝ) - 69) =
      (6361:ℝ) by norm_num]
    exact h6361
  · show Real.sqrt _ < _
    unfold DIST_THRESH_MAX
    rw [show ((40:ℝ) - 0) * ((40:ℝ) - 0) + ((69:ℝ) - 0) * ((69:ℝ) - 0) =
      (6361:ℝ) by norm_num]
    exact h6361
  · unfold triOpacity triangleArea maxArea DIST_THRESH_MAX
    norm_num

/-- C1 amended: for every triple of particles with pairwise distances below
the threshold, the triangle opacity lies in `(-0.02, 0.02]`: the upper
bound `0.02` always holds, but the area can exceed `maxArea =
distThreshold²/4`, so the opacity can be negative (though never `≤ -0.02`). -/
theorem triOpacity_bounds (d1 d2 d3 : Dot)
    (h12 : distance d1 d2 < DIST_THRESH_MAX)
    (_h23 : distance d2 d3 < DIST_THRESH_MAX)
    (h31 : distance d3 d1 < DIST_THRESH_MAX) :
    -0.02 < triOpacity d1 d2 d3 ∧ triOpacity d1 d2 d3 ≤ 0.02 := by
  have h13 : distance d1 d3 < DIST_THRESH_MAX := by
    rw [distance_comm]
    exact h31
  have hS : d1.x * (d2.y - d3.y) + d2.x * (d3.y - d1.y) + d3.x * (d1.y - d2.y) =
      (d1.x - d2.x) * (d1.y - d3.y) - (d1.x - d3.x) * (d1.y - d2.y) := by
    ring
  have hP0 : (0:ℝ) ≤ (d1.x - d2.x) * (d1.x - d2.x) + (d1.y - d2.y) * (d1.y - d2.y) :=
    add_nonneg (mul_self_nonneg _) (mul_self_nonneg _)
  have habs : |d1.x * (d2.y - d3.y) + d2.x * (d3.y - d1.y) + d3.x * (d1.y - d2.y)| ≤
      distance d1 d2 * distance d1 d3 := by
    unfold distance
    rw [← Real.sqrt_mul hP0, ← Real.sqrt_sq_eq_abs]
    apply Real.sqrt_le_sqrt
    rw [hS]
    nlinarith [sq_nonneg ((d1.x - d2.x) * (d1.x - d2.x) + (d1.y - d2.y) * (d1.y - d3.y)),
      sq_nonneg ((d1.x - d2.x) * (d1.x - d3.x) + (d1.y - d2.y) * (d1.y - d3.y))]
  have hdd : distance d1 d2 * distance d1 d3 < 8100 := by
    have h90 : DIST_THRESH_MAX * DIST_THRESH_MAX = (8100:ℝ) := by
      unfold DIST_THRESH_MAX
      norm_num
    calc distance d1 d2 * distance d1 d3 < DIST_THRESH_MAX * DIST_THRESH_MAX :=
          mul_lt_mul'' h12 h13 (Real.sqrt_nonneg _) (Real.sqrt_nonneg _)
      _ = 8100 := h90
  have harea : triangleArea d1 d2 d3 < 4050 := by
    unfold triangleArea
    have := habs.trans_lt hdd
    linarith
  have hnn : 0 ≤ triangleArea d1 d2 d3 := by
    unfold triangleArea
    positivity
  constructor
  · unfold triOpacity maxArea DIST_THRESH_MAX
    have hdiv : triangleArea d1 d2 d3 / ((90:ℝ) * 90 / 4) < 2 := by
      rw [div_lt_iff₀ (by norm_num : (0:ℝ) < (90:ℝ) * 90 / 4)]
      linarith
    nlinarith [hdiv]
  · unfold triOpacity maxArea DIST_THRESH_MAX
    have hdiv : 0 ≤ triangleArea d1 d2 d3 / ((90:ℝ) * 90 / 4) := by
      positivity
    nlinarith [hdiv]

/-- Witness for the amended C1: three coincident particles are pairwise
within the threshold and their triangle opacity is within the bounds. -/
theorem triOpacity_bounds_witness :
    (distance ⟨0, 0, 0, 0, 1⟩ ⟨0, 0, 0, 0, 1⟩ < DIST_THRESH_MAX ∧
     distance ⟨0, 0, 0, 0, 1⟩ ⟨0, 0, 0, 0, 1⟩ < DIST_THRESH_MAX) ∧
    (-0.02 < triOpacity ⟨0, 0, 0, 0, 1⟩ ⟨0, 0, 0, 0, 1⟩ ⟨0, 0, 0, 0, 1⟩ ∧
     triOpacity ⟨0, 0, 0, 0, 1⟩ ⟨0, 0, 0, 0, 1⟩ ⟨0, 0, 0, 0, 1⟩ ≤ 0.02) := by
  have hz : distance ⟨0, 0, 0, 0, 1⟩ ⟨0, 0, 0, 0, 1⟩ < DIST_THRESH_MAX := by
    unfold distance DIST_THRESH_MAX
    norm_num [Real.sqrt_zero]
  exact ⟨⟨hz, hz⟩,
    triOpacity_bounds ⟨0, 0, 0, 0, 1⟩ ⟨0, 0, 0, 0, 1⟩ ⟨0, 0, 0, 0, 1⟩ hz hz hz⟩

/-- C4 counterexample: at a concrete input (resting particle of mass `0.5`
at `(1000, 500)` on a `1000 × 1000` canvas, silent bands) the code's step
(`updateDot`) ends with `vx = -50`, while the pipeline the claim describes
(`updateDotClaimed`: centering force inside `F`, `a = F/mass`, then damping
and speed clamp) would end with `vx = -10`; the claim's description of the
step is therefore false on the code. -/
theorem centering_in_force_cex :
    (updateDot ⟨1000, 1000⟩ initializeFrequencyBands
      ⟨1000, 500, 0, 0, 0.5⟩).vx = -50 ∧
    (updateDotClaimed ⟨1000, 1000⟩ initializeFrequencyBands
      ⟨1000, 500, 0, 0, 0.5⟩).vx = -10 ∧
    (updateDot ⟨1000, 1000⟩ initializeFrequencyBands
      ⟨1000, 500, 0, 0, 0.5⟩).vx ≠
      (updateDotClaimed ⟨1000, 1000⟩ initializeFrequencyBands
        ⟨1000, 500, 0, 0, 0.5⟩).vx := by
  have hD : distFromCenter ⟨1000, 1000⟩ (⟨1000, 500, 0, 0, 0.5⟩ : Dot) = 500 := by
    unfold distFromCenter
    rw [show ((1000:ℝ)/2 - 1000) * ((1000:ℝ)/2 - 1000) +
        ((1000:ℝ)/2 - 500) * ((1000:ℝ)/2 - 500) = 500^2 by norm_num]
    exact Real.sqrt_sq (by norm_num)
  have hM : maxDistThreshold ⟨1000, 1000⟩ = 400 := by
    unfold maxDistThreshold
    norm_num [min_self]
  have hP : pullFactor ⟨1000, 1000⟩ (⟨1000, 500, 0, 0, 0.5⟩ : Dot) = 0.1 := by
    unfold pullFactor INWARD_PULL
    rw [hD, hM]
    norm_num
  have hsq99 : Real.sqrt 9801 = 99 := by
    rw [show (9801:ℝ) = 99^2 by norm_num]
    exact Real.sqrt_sq (by norm_num)
  have hcode : (updateDot ⟨1000, 1000⟩ initializeFrequencyBands
      ⟨1000, 500, 0, 0, 0.5⟩).vx = -50 := by
    have hA : applyFFTForces ⟨1000, 1000⟩ initializeFrequencyBands
        ⟨1000, 500, 0, 0, 0.5⟩ = ⟨1000, 500, 0, 0, 0.5⟩ := by
      rw [applyFFTForces_zero_force _ _ _ initializeFrequencyBands_intensity
        (by unfold maxSpeed; norm_num)]
      simp
    have h2 : centerPull ⟨1000, 1000⟩ (⟨1000, 500, 0, 0, 0.5⟩ : Dot) =
        ⟨1000, 500, -50, 0, 0.5⟩ := by
      unfold centerPull
      rw [hD, hM, hP, if_pos (by norm_num : (400:ℝ) < 500)]
      norm_num
    have h3 : moveDot (⟨1000, 500, -50, 0, 0.5⟩ : Dot) =
        ⟨950, 500, -50, 0, 0.5⟩ := by
      unfold moveDot
      norm_num
    have h4 : handleBoundary ⟨1000, 1000⟩ (⟨950, 500, -50, 0, 0.5⟩ : Dot) =
        ⟨950, 500, -50, 0, 0.5⟩ :=
      handleBoundary_of_inside _ _ (by norm_num) (by norm_num) (by norm_num)
        (by norm_num)
    unfold updateDot
    rw [hA, h2, h3, h4]
  have hclaim : (updateDotClaimed ⟨1000, 1000⟩ initializeFrequencyBands
      ⟨1000, 500, 0, 0, 0.5⟩).vx = -10 := by
    unfold updateDotClaimed
    rw [totalForce_zero _ _ _ initializeFrequencyBands_intensity, hD, hM, hP,
      if_pos (by norm_num : (400:ℝ) < 500)]
    dsimp only
    norm_num [DAMPING, maxSpeed, bounceAxis, hsq99]
  refine ⟨hcode, hclaim, ?_⟩
  rw [hcode, hclaim]
  norm_num

/-- C7: after one full per-particle integration step (`updateDot`), the
particle's position lies in `[0, width] × [0, height]`, for every entering
state, every band configuration and every nonnegative canvas. -/
theorem boundary_invariant (c : Canvas) (bands : List Band) (d : Dot)
    (hw : 0 ≤ c.width) (hh : 0 ≤ c.height) :
    0 ≤ (updateDot c bands d).x ∧ (updateDot c bands d).x ≤ c.width ∧
    0 ≤ (updateDot c bands d).y ∧ (updateDot c bands d).y ≤ c.height := by
  have hx := bounceAxis_fst_mem (moveDot (centerPull c (applyFFTForces c bands d))).x
    (moveDot (centerPull c (applyFFTForces c bands d))).vx c.width hw
  have hy := bounceAxis_fst_mem (moveDot (centerPull c (applyFFTForces c bands d))).y
    (moveDot (centerPull c (applyFFTForces c bands d))).vy c.height hh
  exact ⟨hx.1, hx.2, hy.1, hy.2⟩

/-- Witness for C7 at a concrete canvas, band list and particle. -/
theorem boundary_invariant_witness :
    (0:ℝ) ≤ (Canvas.mk 100 100).width ∧ (0:ℝ) ≤ (Canvas.mk 100 100).height ∧
    (0 ≤ (updateDot ⟨100, 100⟩ [] ⟨1, 2, 3, 4, 1⟩).x ∧
     (updateDot ⟨100, 100⟩ [] ⟨1, 2, 3, 4, 1⟩).x ≤ (Canvas.mk 100 100).width ∧
     0 ≤ (updateDot ⟨100, 100⟩ [] ⟨1, 2, 3, 4, 1⟩).y ∧
     (updateDot ⟨100, 100⟩ [] ⟨1, 2, 3, 4, 1⟩).y ≤ (Canvas.mk 100 100).height) :=
  ⟨by norm_num, by norm_num,
   boundary_invariant ⟨100, 100⟩ [] ⟨1, 2, 3, 4, 1⟩ (by norm_num) (by norm_num)⟩

/-! ### C8 -/

/-- C8: on each axis the boundary response clamps an out-of-low position to
`0` and sets the velocity component to `+|v| * EDGE_BOUNCE`, clamps an
out-of-high position to the bound and sets it to `-|v| * EDGE_BOUNCE`; in
particular a particle arriving at `x = -5` ends the step at `x = 0` with
`vx = |original vx| * EDGE_BOUNCE`. -/
theorem bounce_response :
    (∀ pos v bound : ℝ, pos < 0 →
        bounceAxis pos v bound = (0, |v| * EDGE_BOUNCE)) ∧
    (∀ pos v bound : ℝ, 0 ≤ bound → bound < pos →
        bounceAxis pos v bound = (bound, -|v| * EDGE_BOUNCE)) ∧
    (∀ (c : Canvas) (d : Dot), d.x = -5 →
        (handleBoundary c d).x = 0 ∧
        (handleBoundary c d).vx = |d.vx| * EDGE_BOUNCE) := by
  refine ⟨?_, ?_, ?_⟩
  · intro pos v bound h
    unfold bounceAxis
    rw [if_pos h]
  · intro pos v bound hb h
    unfold bounceAxis
    rw [if_neg (not_lt.mpr (hb.trans h.le)), if_pos h]
  · intro c d h
    have h5 : d.x < 0 := by rw [h]; norm_num
    constructor
    · show (bounceAxis d.x d.vx c.width).1 = 0
      unfold bounceAxis
      rw [if_pos h5]
    · show (bounceAxis d.x d.vx c.width).2 = |d.vx| * EDGE_BOUNCE
      unfold bounceAxis
      rw [if_pos h5]

/-- Witness for C8: each part of `bounce_response` applied at concrete
positions, velocities and bounds. -/
theorem bounce_response_witness :
    bounceAxis (-5) 3 100 = (0, |(3:ℝ)| * EDGE_BOUNCE) ∧
    bounceAxis 120 3 100 = (100, -|(3:ℝ)| * EDGE_BOUNCE) ∧
    ((handleBoundary ⟨200, 200⟩ ⟨-5, 7, 6, 0, 1⟩).x = 0 ∧
     (handleBoundary ⟨200, 200⟩ ⟨-5, 7, 6, 0, 1⟩).vx = |(6:ℝ)| * EDGE_BOUNCE) :=
  ⟨bounce_response.1 (-5) 3 100 (by norm_num),
   bounce_response.2.1 120 3 100 (by norm_num) (by norm_num),
   bounce_response.2.2 ⟨200, 200⟩ ⟨-5, 7, 6, 0, 1⟩ rfl⟩

/-! ### C5 -/

theorem edgeAt_some (dots : List Dot) (i j : ℕ) (e : Edge)
    (h : edgeAt dots i j = some e) :
    e.i = i ∧ e.j = j ∧ ∃ di dj, dots.get? i = some di ∧
      dots.get? j = some dj ∧ distance di dj < DIST_THRESH_MAX ∧
      e.opacity = 1 - distance di dj / DIST_THRESH_MAX ∧ i < j := by
  unfold edgeAt at h
  by_cases h1 : i < j
  · rw [if_pos h1] at h
    rcases hgi : dots.get? i with _ | di <;> rw [hgi] at h
    · simp at h
    · rcases hgj : dots.get? j with _ | dj <;> rw [hgj] at h
      · simp at h
      · simp only [Option.some_bind] at h
        by_cases h2 : distance di dj < DIST_THRESH_MAX
        · rw [if_pos h2] at h
          obtain rfl := Option.some_injective _ h.symm
          exact ⟨rfl, rfl, di, dj, rfl, rfl, h2, rfl, h1⟩
        · rw [if_neg h2] at h
          simp at h
  · rw [if_neg h1] at h
    simp at h

theorem countP_flatMap (p : Edge → Bool) (f : ℕ → List Edge) (l : List ℕ) :
    (l.flatMap f).countP p = (l.map (fun a => (f a).countP p)).sum := by
  induction l with
  | nil => rfl
  | cons a l ih =>
    rw [List.flatMap_cons, List.countP_append, List.map_cons, List.sum_cons, ih]

theorem countP_block_ne (dots : List Dot) (n a i j : ℕ) (ha : a ≠ i) :
    ((List.range n).filterMap (fun j2 => edgeAt dots a j2)).countP
      (fun e => e.i == i && e.j == j) = 0 := by
  apply List.countP_eq_zero.mpr
  intro e he
  obtain ⟨j2, _, hsome⟩ := List.mem_filterMap.mp he
  obtain ⟨hei, -⟩ := edgeAt_some dots a j2 e hsome
  simp [hei, ha]

theorem countP_filterMap_edge (dots : List Dot) (i j : ℕ) (l : List ℕ)
    (hnd : l.Nodup) (hj : j ∈ l) :
    (l.filterMap (fun j2 => edgeAt dots i j2)).countP
      (fun e => e.i == i && e.j == j) =
      if (edgeAt dots i j).isSome then 1 else 0 := by
  induction l with
  | nil => cases hj
  | cons a l ih =>
    rcases List.mem_cons.mp hj with rfl | hjl
    · have hnotin : j ∉ l := (List.nodup_cons.mp hnd).1
      have htail : (l.filterMap (fun j2 => edgeAt dots i j2)).countP
          (fun e => e.i == i && e.j == j) = 0 := by
        apply List.countP_eq_zero.mpr
        intro e he
        obtain ⟨j2, hj2, hsome⟩ := List.mem_filterMap.mp he
        obtain ⟨-, hej, -⟩ := edgeAt_some dots i j2 e hsome
        have hne : j2 ≠ j := fun hh => hnotin (hh ▸ hj2)
        simp [hej, hne]
      rcases hedge : edgeAt dots i j with _ | e
      · rw [List.filterMap_cons_none hedge, htail]
        simp
      · rw [List.filterMap_cons_some hedge, List.countP_cons, htail]
        obtain ⟨hei, hej, -⟩ := edgeAt_some dots i j e hedge
        simp [hedge, hei, hej]
    · have ha : a ≠ j := fun hh => (List.nodup_cons.mp hnd).1 (hh ▸ hjl)
      have ih2 := ih (List.nodup_cons.mp hnd).2 hjl
      rcases hedge : edgeAt dots i a with _ | e
      · rw [List.filterMap_cons_none hedge, ih2]
      · rw [List.filterMap_cons_some hedge, List.countP_cons, ih2]
        obtain ⟨-, hej, -⟩ := edgeAt_some dots i a e hedge
        simp [hej, ha]

theorem map_sum_single (l : List ℕ) (f : ℕ → ℕ) (i : ℕ) (hnd : l.Nodup)
    (hi : i ∈ l) (hz : ∀ a ∈ l, a ≠ i → f a = 0) : (l.map f).sum = f i := by
  induction l with
  | nil => cases hi
  | cons a l ih =>
    rw [List.map_cons, List.sum_cons]
    rcases List.mem_cons.mp hi with rfl | hil
    · have hall : ∀ b ∈ l, f b = 0 := fun b hb =>
        hz b (List.mem_cons_of_mem _ hb)
          (fun hh => (List.nodup_cons.mp hnd).1 (hh ▸ hb))
      have hsum : (l.map f).sum = 0 := List.sum_eq_zero (by
        intro x hx
        obtain ⟨b, hb, rfl⟩ := List.mem_map.mp hx
        exact hall b hb)
      rw [hsum]
      omega
    · have ha : a ≠ i := fun hh => (List.nodup_cons.mp hnd).1 (hh ▸ hil)
      rw [hz a (List.mem_cons_self a l) ha,
        ih (List.nodup_cons.mp hnd).2 hil (fun b hb hbne =>
          hz b (List.mem_cons_of_mem _ hb) hbne)]
      omega

/-- C5 amended: for every index pair `i < j` of the particle list with
Euclidean distance strictly below the threshold, exactly one edge is
emitted, with opacity `1 - dist/DIST_THRESH_MAX` (so opacity `1` at
distance `0`); for a pair at distance not below the threshold — including
distance exactly equal to it — no edge is emitted at all (rather than an
edge of opacity `0`). -/
theorem edge_emission (dots : List Dot) (i j : ℕ) (di dj : Dot)
    (hij : i < j) (hi : dots.get? i = some di) (hj : dots.get? j = some dj) :
    ((edgeList dots).countP (fun e => e.i == i && e.j == j) =
      if distance di dj < DIST_THRESH_MAX then 1 else 0) ∧
    (∀ e ∈ edgeList dots, e.i = i → e.j = j →
      e.opacity = 1 - distance di dj / DIST_THRESH_MAX) ∧
    (distance di dj = 0 →
      ∃ e ∈ edgeList dots, e.i = i ∧ e.j = j ∧ e.opacity = 1) := by
  have hjlen : j < dots.length := by
    rcases List.get?_eq_some.mp hj with ⟨h, -⟩
    exact h
  have hilen : i < dots.length := hij.trans hjlen
  have hform : edgeAt dots i j =
      if distance di dj < DIST_THRESH_MAX then
        some ⟨i, j, 1 - distance di dj / DIST_THRESH_MAX⟩
      else none := by
    unfold edgeAt
    rw [if_pos hij, hi, hj]
    rfl
  have hcount : (edgeList dots).countP (fun e => e.i == i && e.j == j) =
      if distance di dj < DIST_THRESH_MAX then 1 else 0 := by
    unfold edgeList
    rw [countP_flatMap]
    rw [map_sum_single _ _ i (List.nodup_range _) (List.mem_range.mpr hilen)
      (fun a _ hne => countP_block_ne dots dots.length a i j hne)]
    rw [countP_filterMap_edge dots i j _ (List.nodup_range _)
      (List.mem_range.mpr hjlen), hform]
    by_cases hd : distance di dj < DIST_THRESH_MAX
    · simp [hd]
    · simp [hd]
  have hop : ∀ e ∈ edgeList dots, e.i = i → e.j = j →
      e.opacity = 1 - distance di dj / DIST_THRESH_MAX := by
    intro e he hei hej
    unfold edgeList at he
    obtain ⟨a, _, hee⟩ := List.mem_flatMap.mp he
    obtain ⟨j2, _, hsome⟩ := List.mem_filterMap.mp hee
    obtain ⟨h1, h2, di2, dj2, hgi, hgj, _, hopac, -⟩ :=
      edgeAt_some dots a j2 e hsome
    have ha : a = i := h1.symm.trans hei
    have hj2 : j2 = j := h2.symm.trans hej
    rw [ha] at hgi
    rw [hj2] at hgj
    have hdi : di2 = di := Option.some_injective _ (hgi.symm.trans hi)
    have hdj : dj2 = dj := Option.some_injective _ (hgj.symm.trans hj)
    rw [hopac, hdi, hdj]
  refine ⟨hcount, hop, ?_⟩
  intro h0
  have hlt : distance di dj < DIST_THRESH_MAX := by
    rw [h0]
    unfold DIST_THRESH_MAX
    norm_num
  have hpos : 0 < (edgeList dots).countP (fun e => e.i == i && e.j == j) := by
    rw [hcount, if_pos hlt]
    norm_num
  obtain ⟨e, he, hp⟩ := List.countP_pos_iff.mp hpos
  rw [Bool.and_eq_true, beq_iff_eq, beq_iff_eq] at hp
  refine ⟨e, he, hp.1, hp.2, ?_⟩
  rw [hop e he hp.1 hp.2, h0]
  unfold DIST_THRESH_MAX
  norm_num

/-- Witness for the amended C5: two coincident particles at indices `0 < 1`
produce exactly one edge for the pair, and that edge has opacity `1`. -/
theorem edge_emission_witness :
    (([⟨0, 0, 0, 0, 1⟩, ⟨0, 0, 0, 0, 1⟩] : List Dot).get? 0 =
      some ⟨0, 0, 0, 0, 1⟩) ∧
    (((edgeList [⟨0, 0, 0, 0, 1⟩, ⟨0, 0, 0, 0, 1⟩]).countP
        (fun e => e.i == 0 && e.j == 1) =
      if distance ⟨0, 0, 0, 0, 1⟩ ⟨0, 0, 0, 0, 1⟩ < DIST_THRESH_MAX
      then 1 else 0) ∧
    (∀ e ∈ edgeList [⟨0, 0, 0, 0, 1⟩, ⟨0, 0, 0, 0, 1⟩], e.i = 0 → e.j = 1 →
      e.opacity = 1 -
        distance ⟨0, 0, 0, 0, 1⟩ ⟨0, 0, 0, 0, 1⟩ / DIST_THRESH_MAX) ∧
    (distance ⟨0, 0, 0, 0, 1⟩ ⟨0, 0, 0, 0, 1⟩ = 0 →
      ∃ e ∈ edgeList [⟨0, 0, 0, 0, 1⟩, ⟨0, 0, 0, 0, 1⟩],
        e.i = 0 ∧ e.j = 1 ∧ e.opacity = 1)) :=
  ⟨rfl, edge_emission [⟨0, 0, 0, 0, 1⟩, ⟨0, 0, 0, 0, 1⟩] 0 1
    ⟨0, 0, 0, 0, 1⟩ ⟨0, 0, 0, 0, 1⟩ (by norm_num) rfl rfl⟩

/-- C5 counterexample: two particles at distance exactly equal to the
threshold produce no edge at all — not an edge with opacity `0`. -/
theorem edge_threshold_cex :
    distance ⟨0, 0, 0, 0, 1⟩ ⟨90, 0, 0, 0, 1⟩ = DIST_THRESH_MAX ∧
    edgeList [⟨0, 0, 0, 0, 1⟩, ⟨90, 0, 0, 0, 1⟩] = [] := by
  have hd : distance (⟨0, 0, 0, 0, 1⟩ : Dot) (⟨90, 0, 0, 0, 1⟩ : Dot) = 90 := by
    unfold distance
    rw [show ((0:ℝ) - 90) * ((0:ℝ) - 90) + ((0:ℝ) - 0) * ((0:ℝ) - 0) = 90^2
      by norm_num]
    exact Real.sqrt_sq (by norm_num)
  constructor
  · rw [hd]
    rfl
  · unfold edgeList
    simp [edgeAt, hd, DIST_THRESH_MAX, List.range_succ]

/-! ### C3 -/

theorem updateBands_none (a : Analyser) (bands : List Band) (b : Band)
    (hb : b ∈ bands) (hf : bandIntensity a b.centerFreq = none) :
    updateBands a bands = none := by
  induction bands with
  | nil => cases hb
  | cons head rest ih =>
    unfold updateBands
    rcases List.mem_cons.mp hb with h | h
    · subst h
      rw [hf]
    · rw [ih h]
      rcases bandIntensity a head.centerFreq with _ | v <;> rfl

theorem centerFrequency_seven : centerFrequency 7 = 2000 := by
  unfold centerFrequency NUM_FREQUENCY_BANDS
  rw [show ((7:ℕ):ℝ) / (((8:ℕ):ℝ) - 1) = 1 by norm_num, Real.rpow_one]
  norm_num

theorem binIndex_at_3000 : binIndex 2000 3000 16 = 21 := by
  unfold binIndex
  rw [Int.floor_eq_iff]
  constructor <;> norm_num

/-- C3 counterexample: the code performs no clamping of the bin index.
Band 7 has center frequency exactly `2000`; with sample rate `3000` and a
16-bin magnitude array the computed bin index is `21`, which is out of
range, and the resulting intensity is the poisoned out-of-bounds read
(`none`, i.e. `NaN` in JavaScript) rather than a clamped in-range read; the
whole band update is poisoned. -/
theorem intensity_clamp_cex :
    centerFrequency 7 = 2000 ∧
    (⟨centerFrequency 7, 0⟩ : Band) ∈ initializeFrequencyBands ∧
    binIndex 2000 3000 16 = 21 ∧
    ¬((binIndex 2000 3000 16).toNat < (List.replicate (16:ℕ) (200:ℕ)).length) ∧
    bandIntensity ⟨3000, List.replicate 16 200⟩ 2000 = none ∧
    updateFFTForces (some ⟨3000, List.replicate 16 200⟩)
      initializeFrequencyBands = none := by
  have hlen : (List.replicate (16:ℕ) (200:ℕ)).length = 16 := by simp
  have hbi : bandIntensity ⟨3000, List.replicate 16 200⟩ 2000 = none := by
    unfold bandIntensity
    dsimp only
    rw [hlen, binIndex_at_3000]
    unfold readByte
    rw [if_neg (by norm_num)]
    rw [List.get?_eq_none.mpr (by simp)]
    rfl
  refine ⟨centerFrequency_seven, ?_, binIndex_at_3000, ?_, hbi, ?_⟩
  · unfold initializeFrequencyBands NUM_FREQUENCY_BANDS
    exact List.mem_map.mpr ⟨7, by simp, rfl⟩
  · rw [binIndex_at_3000, hlen]
    norm_num
  · show updateBands _ initializeFrequencyBands = none
    apply updateBands_none _ _ ⟨centerFrequency 7, 0⟩
    · unfold initializeFrequencyBands NUM_FREQUENCY_BANDS
      exact List.mem_map.mpr ⟨7, by simp, rfl⟩
    · show bandIntensity _ (centerFrequency 7) = none
      rw [centerFrequency_seven]
      exact hbi

/-- C3 amended: no clamping is performed; whenever the band's center
frequency is nonnegative and below `sampleRate/2` (true of every band for
all real-world sample rates) the computed bin index is already within the
magnitude array, and the intensity equals `magnitude[index] / 255`, which
lies in `[0, 1]` for byte-valued magnitudes.  When the index is out of
range the read is not clamped but poisoned (see the counterexample). -/
theorem bandIntensity_in_range (sr : ℝ) (data : List ℕ) (cf : ℝ)
    (hc0 : 0 ≤ cf) (hcs : cf < sr / 2) (hlen : 0 < data.length)
    (hbytes : ∀ m ∈ data, m ≤ 255) :
    ∃ m : ℕ, (binIndex cf sr data.length).toNat < data.length ∧
      data.get? (binIndex cf sr data.length).toNat = some m ∧
      bandIntensity ⟨sr, data⟩ cf = some ((m : ℝ) / 255) ∧
      0 ≤ (m : ℝ) / 255 ∧ (m : ℝ) / 255 ≤ 1 := by
  have hsr : 0 < sr / 2 := lt_of_le_of_lt hc0 hcs
  have hr0 : 0 ≤ cf / (sr / 2) := div_nonneg hc0 hsr.le
  have hr1 : cf / (sr / 2) < 1 := (div_lt_one hsr).mpr hcs
  have hfl0 : 0 ≤ binIndex cf sr data.length := by
    unfold binIndex
    exact Int.floor_nonneg.mpr (mul_nonneg hr0 (Nat.cast_nonneg _))
  have hflt : binIndex cf sr data.length < (data.length : ℤ) := by
    unfold binIndex
    apply Int.floor_lt.mpr
    push_cast
    calc cf / (sr / 2) * (data.length : ℝ) < 1 * (data.length : ℝ) := by
          apply mul_lt_mul_of_pos_right hr1
          exact_mod_cast hlen
      _ = (data.length : ℝ) := one_mul _
  have hlt : (binIndex cf sr data.length).toNat < data.length := by
    omega
  refine ⟨data.get ⟨_, hlt⟩, hlt, List.get?_eq_get hlt, ?_, ?_, ?_⟩
  · unfold bandIntensity readByte
    dsimp only
    rw [if_neg (not_lt.mpr hfl0), List.get?_eq_get hlt]
    rfl
  · positivity
  · have hmle : data.get ⟨_, hlt⟩ ≤ 255 :=
      hbytes _ (List.get?_mem (List.get?_eq_get hlt))
    rw [div_le_one (by norm_num : (0:ℝ) < 255)]
    exact_mod_cast hmle

/-- Witness for the amended C3: sample rate `44100`, a 16-bin array of
constant magnitude `100`, band center `2000`. -/
theorem bandIntensity_in_range_witness :
    ∃ m : ℕ,
      (binIndex 2000 44100 (List.replicate 16 100).length).toNat <
        (List.replicate 16 100).length ∧
      (List.replicate 16 100).get?
        (binIndex 2000 44100 (List.replicate 16 100).length).toNat = some m ∧
      bandIntensity ⟨44100, List.replicate 16 100⟩ 2000 = some ((m : ℝ) / 255) ∧
      0 ≤ (m : ℝ) / 255 ∧ (m : ℝ) / 255 ≤ 1 :=
  bandIntensity_in_range 44100 (List.replicate 16 100) 2000 (by norm_num)
    (by norm_num) (by simp)
    (fun m hm => by rw [List.eq_of_mem_replicate hm]; norm_num)

/-! ### C2 -/

/-- C2 counterexample: the full integration step does not keep the speed
below `maxSpeed`: a particle at rest at `(1000, 500)` on a `1000 × 1000`
canvas with silent bands leaves the step with speed `50`, far above
`maxSpeed + 1`, because the centering impulse is applied after the speed
clamp. -/
theorem speed_clamp_cex :
    maxSpeed + 1 <
      speed (updateDot ⟨1000, 1000⟩ initializeFrequencyBands
        ⟨1000, 500, 0, 0, 1⟩) := by
  have h1 : applyFFTForces ⟨1000, 1000⟩ initializeFrequencyBands
      ⟨1000, 500, 0, 0, 1⟩ = ⟨1000, 500, 0, 0, 1⟩ := by
    rw [applyFFTForces_zero_force _ _ _ initializeFrequencyBands_intensity
      (by unfold maxSpeed; norm_num)]
    simp
  have hD : distFromCenter ⟨1000, 1000⟩ (⟨1000, 500, 0, 0, 1⟩ : Dot) = 500 := by
    unfold distFromCenter
    rw [show ((1000:ℝ)/2 - 1000) * ((1000:ℝ)/2 - 1000) +
        ((1000:ℝ)/2 - 500) * ((1000:ℝ)/2 - 500) = 500^2 by norm_num]
    exact Real.sqrt_sq (by norm_num)
  have hM : maxDistThreshold ⟨1000, 1000⟩ = 400 := by
    unfold maxDistThreshold
    norm_num [min_self]
  have hP : pullFactor ⟨1000, 1000⟩ (⟨1000, 500, 0, 0, 1⟩ : Dot) = 0.1 := by
    unfold pullFactor INWARD_PULL
    rw [hD, hM]
    norm_num
  have h2 : centerPull ⟨1000, 1000⟩ (⟨1000, 500, 0, 0, 1⟩ : Dot) =
      ⟨1000, 500, -50, 0, 1⟩ := by
    unfold centerPull
    rw [hD, hM, hP, if_pos (by norm_num : (400:ℝ) < 500)]
    norm_num
  have h3 : moveDot (⟨1000, 500, -50, 0, 1⟩ : Dot) = ⟨950, 500, -50, 0, 1⟩ := by
    unfold moveDot
    norm_num
  have h4 : handleBoundary ⟨1000, 1000⟩ (⟨950, 500, -50, 0, 1⟩ : Dot) =
      ⟨950, 500, -50, 0, 1⟩ :=
    handleBoundary_of_inside _ _ (by norm_num) (by norm_num) (by norm_num)
      (by norm_num)
  unfold updateDot
  rw [h1, h2, h3, h4]
  unfold speed
  dsimp only
  rw [show ((-50:ℝ) * (-50) + 0 * 0) = 50^2 by norm_num,
    Real.sqrt_sq (by norm_num : (0:ℝ) ≤ 50)]
  unfold maxSpeed
  norm_num

/-- C2 amended: the speed clamp guarantee holds immediately after the
force/damping/clamp sub-step `applyFFTForces` — there the speed never
exceeds `maxSpeed`, for any particle state, any band intensities and any
canvas; the centering impulse applied later in the tick can push the final
speed above `maxSpeed` (see the counterexample). -/
theorem speed_clamped_after_forces (c : Canvas) (bands : List Band) (d : Dot) :
    speed (applyFFTForces c bands d) ≤ maxSpeed := by
  unfold applyFFTForces
  exact clampVel_speed_le _ _ d

/-! ### C9 -/

/-- C9: with no analyser attached every band intensity is `0` on every tick
(the initialized bands have intensity `0` and `updateFFTForces` leaves them
unchanged), the tick always produces a result (never an error), and the
accumulated FFT force on every particle is zero, so only the centering
force and boundary handling shape the motion. -/
theorem no_analyser_zero_intensities :
    (∀ b ∈ initializeFrequencyBands, b.intensity = 0) ∧
    (∀ bands : List Band, updateFFTForces none bands = some bands) ∧
    (∀ (c : Canvas) (dots : List Dot),
        updateDots c none initializeFrequencyBands dots =
          some (initializeFrequencyBands,
            dots.map (updateDot c initializeFrequencyBands))) ∧
    (∀ (c : Canvas) (d : Dot),
        totalForce c initializeFrequencyBands d = (0, 0)) :=
  ⟨initializeFrequencyBands_intensity, fun _ => rfl, fun _ _ => rfl,
   fun c d => totalForce_zero c initializeFrequencyBands d
     initializeFrequencyBands_intensity⟩

/-- Witness for C9: band 0 is initialized with intensity `0`, a missing
analyser leaves a concrete band list untouched and produces a full tick
result, and the accumulated FFT force on a concrete particle is zero. -/
theorem no_analyser_zero_intensities_witness :
    (⟨centerFrequency 0, 0⟩ : Band) ∈ initializeFrequencyBands ∧
    (⟨centerFrequency 0, 0⟩ : Band).intensity = 0 ∧
    updateFFTForces none [⟨440, 0⟩] = some [⟨440, 0⟩] ∧
    updateDots ⟨100, 100⟩ none initializeFrequencyBands [] =
      some (initializeFrequencyBands, []) ∧
    totalForce ⟨100, 100⟩ initializeFrequencyBands ⟨1, 2, 3, 4, 5⟩ = (0, 0) := by
  have hmem : (⟨centerFrequency 0, 0⟩ : Band) ∈ initializeFrequencyBands := by
    unfold initializeFrequencyBands NUM_FREQUENCY_BANDS
    exact List.mem_map.mpr ⟨0, by simp, rfl⟩
  exact ⟨hmem, no_analyser_zero_intensities.1 _ hmem,
    no_analyser_zero_intensities.2.1 [⟨440, 0⟩],
    no_analyser_zero_intensities.2.2.1 ⟨100, 100⟩ [],
    no_analyser_zero_intensities.2.2.2 ⟨100, 100⟩ ⟨1, 2, 3, 4, 5⟩⟩

/-! ### C10 -/

/-- C10: with no analyser attached, a particle whose distance from the
domain center is at most 40% of the smaller dimension, whose speed is at
most `maxSpeed`, and whose damped-drift target position stays inside the
bounds, is updated by exactly the damped velocity: the position moves by
`v * DAMPING` and both velocity components are multiplied by `DAMPING`. -/
theorem no_audio_damped_drift (c : Canvas) (bands : List Band) (d : Dot)
    (hb : ∀ b ∈ bands, b.intensity = 0)
    (hcen : distFromCenter c d ≤ maxDistThreshold c)
    (hv : d.vx * d.vx + d.vy * d.vy ≤ maxSpeed * maxSpeed)
    (hx0 : 0 ≤ d.x + d.vx * DAMPING) (hx1 : d.x + d.vx * DAMPING ≤ c.width)
    (hy0 : 0 ≤ d.y + d.vy * DAMPING) (hy1 : d.y + d.vy * DAMPING ≤ c.height) :
    updateDots c none bands [d] =
      some (bands,
        [{ d with
           x := d.x + d.vx * DAMPING,
           y := d.y + d.vy * DAMPING,
           vx := d.vx * DAMPING, vy := d.vy * DAMPING }]) := by
  have h1 := applyFFTForces_zero_force c bands d hb hv
  have h2 : centerPull c { d with vx := d.vx * DAMPING, vy := d.vy * DAMPING } =
      { d with vx := d.vx * DAMPING, vy := d.vy * DAMPING } :=
    centerPull_of_le c _ hcen
  have h3 : moveDot { d with vx := d.vx * DAMPING, vy := d.vy * DAMPING } =
      { d with x := d.x + d.vx * DAMPING, y := d.y + d.vy * DAMPING,
               vx := d.vx * DAMPING, vy := d.vy * DAMPING } := rfl
  have h4 : handleBoundary c
      { d with x := d.x + d.vx * DAMPING, y := d.y + d.vy * DAMPING,
               vx := d.vx * DAMPING, vy := d.vy * DAMPING } =
      { d with x := d.x + d.vx * DAMPING, y := d.y + d.vy * DAMPING,
               vx := d.vx * DAMPING, vy := d.vy * DAMPING } :=
    handleBoundary_of_inside c _ hx0 hx1 hy0 hy1
  show some (bands, [updateDot c bands d]) = _
  unfold updateDot
  rw [h1, h2, h3, h4]

/-- Witness for C10: a particle at the center of a `100 × 100` canvas with
velocity `(3, 4)` drifts by the damped velocity and keeps mass `1`. -/
theorem no_audio_damped_drift_witness :
    updateDots ⟨100, 100⟩ none [] [⟨50, 50, 3, 4, 1⟩] =
      some ([], [{ (⟨50, 50, 3, 4, 1⟩ : Dot) with
        x := 50 + 3 * DAMPING, y := 50 + 4 * DAMPING,
        vx := 3 * DAMPING, vy := 4 * DAMPING }]) :=
  no_audio_damped_drift ⟨100, 100⟩ [] ⟨50, 50, 3, 4, 1⟩ (by simp)
    (by unfold distFromCenter maxDistThreshold
        norm_num [min_self, Real.sqrt_zero])
    (by unfold maxSpeed; norm_num)
    (by unfold DAMPING; norm_num) (by unfold DAMPING; norm_num)
    (by unfold DAMPING; norm_num) (by unfold DAMPING; norm_num)

/-! ### C6 -/

/-- C6 counterexample: `setDotCount(-5)` is not rejected — it silently
stores `-5` and produces an empty particle population. -/
theorem setDotCount_accepts_negative :
    setDotCount anyDotGen ⟨50, []⟩ (-5) = ⟨-5, []⟩ := by
  unfold setDotCount initializeDots
  norm_num

/-- C6 amended: the particle-count operation performs no validation: a
negative count is stored verbatim in `DOT_COUNT` and the rebuilt particle
population is empty (size 0); no rejection and no clamping of the stored
value occur. -/
theorem setDotCount_no_validation (gen : ℕ → Dot) (s : SysState) (count : ℤ)
    (h : count < 0) :
    (setDotCount gen s count).dotCount = count ∧
    (setDotCount gen s count).dots = [] := by
  refine ⟨rfl, ?_⟩
  unfold setDotCount initializeDots
  rw [Int.toNat_of_nonpos h.le]
  rfl

/-- Witness for the amended C6 at count `-7`. -/
theorem setDotCount_no_validation_witness :
    (-7 : ℤ) < 0 ∧
    ((setDotCount anyDotGen ⟨3, []⟩ (-7)).dotCount = -7 ∧
     (setDotCount anyDotGen ⟨3, []⟩ (-7)).dots = []) :=
  ⟨by norm_num, setDotCount_no_validation anyDotGen ⟨3, []⟩ (-7) (by norm_num)⟩

end FFTDJ
